import Mathlib

/-!
Verification of the notes / packing-list REST backend.

The development shallowly embeds the three JavaScript variants of the
backend (src/server.js, src/unnamed/part_000, src/unnamed/part_001).
Document-store state is a record of lists; each Express registration is
transcribed in source order and a request is dispatched by scanning the
registrations exactly as the router does.  bcrypt hashing and comparison
are abstracted as an explicit `Crypto` record of functions, and the
random bytes drawn for access tokens, fresh object ids and clock reads
are passed in as an explicit `Fresh` oracle.
-/

/-- A stored user document (the UserSchema, identical in all variants). -/
structure User where
  id : String
  username : String
  password : String
  accessToken : String
deriving DecidableEq

/-- A stored personal-note document (PersonalNotesSchema).  The schema
declares the creation-time path under the name `createAt`; the `user`
path is an optional reference to a User id (mongoose stores no value at
all when the handler supplies undefined). -/
structure Note where
  id : String
  heading : String
  message : String
  tags : String
  createAt : Nat
  user : Option String
deriving DecidableEq

/-- A stored packing-list document (PackingListSchema). -/
structure Item where
  id : String
  heading : String
  message : String
  createAt : Nat
  isCompleted : Bool
  user : Option String
deriving DecidableEq

/-- The document store plus the mongoose connection readyState
(1 means connected). -/
structure ServerState where
  users : List User
  notes : List Note
  packing : List Item
  readyState : Nat
deriving DecidableEq

/-- A parsed JSON request body; absent keys are `none` (undefined).  The
`user` field stands for a client-supplied owner field, which no handler
ever destructures. -/
structure Body where
  username : Option String := none
  password : Option String := none
  heading : Option String := none
  message : Option String := none
  tags : Option String := none
  isCompleted : Option Bool := none
  user : Option String := none
deriving DecidableEq

inductive Method where
  | get
  | post
  | patch
  | delete
deriving DecidableEq

/-- An incoming HTTP request: method, path split into segments, the raw
Authorization header, and the JSON body. -/
structure Request where
  method : Method
  path : List String
  auth : Option String
  body : Body
deriving DecidableEq

/-- bcrypt, abstracted: `hash` folds genSaltSync + hashSync, `compare`
is compareSync. -/
structure Crypto where
  hash : String → String
  compare : String → String → Bool

/-- The oracle for the non-deterministic inputs of one request: the
random bytes drawn by crypto.randomBytes(128), the object ids minted by
the store, and the clock. -/
structure Fresh where
  tokenBytes : List Nat
  userId : String
  noteId : String
  itemId : String
  now : Nat

/-- Lower-case hex digit, as produced by Buffer.toString("hex"). -/
def hexDigit (n : Nat) : Char :=
  if n < 10 then Char.ofNat (48 + n) else Char.ofNat (87 + n)

/-- Two hex digits per byte. -/
def hexChars : List Nat → List Char
  | [] => []
  | b :: bs => hexDigit ((b % 256) / 16) :: hexDigit (b % 16) :: hexChars bs

/-- crypto.randomBytes(n).toString("hex"). -/
def hexEncode (bytes : List Nat) : String :=
  String.mk (hexChars bytes)

/-- Lower-casing as performed by toLowerCase, character by character
(the stored data in this development is ASCII). -/
def strToLower (s : String) : String :=
  String.mk (s.data.map Char.toLower)

/-- ASCII whitespace, the characters trimmed by the mongoose trim
option on the values this development feeds it. -/
def isWs (ch : Char) : Bool :=
  ch = ' ' || ch = Char.ofNat 9 || ch = Char.ofNat 10 || ch = Char.ofNat 13

def dropLeadingWs : List Char → List Char
  | [] => []
  | ch :: cs => if isWs ch then dropLeadingWs cs else ch :: cs

/-- String.trim: drop whitespace at both ends. -/
def strTrim (s : String) : String :=
  String.mk ((dropLeadingWs ((dropLeadingWs s.data).reverse)).reverse)

/-- The outcome of the register handler body. -/
inductive RegisterOut where
  | duplicate
  | weak
  | created (username accessToken userId : String)
deriving DecidableEq

/-- app.post("/register") handler, identical in server.js, part_000 and
both part_001 variants: look the lowercased username up, reject a hit as
a duplicate, then reject a password shorter than 8 characters, else
persist the new user with the lowercased username, the salted hash and
the random hex token from the schema default. -/
def register (c : Crypto) (fresh : Fresh) (users : List User)
    (username password : String) : RegisterOut × List User :=
  match users.find? (fun w => w.username == strToLower username) with
  | some _ => (.duplicate, users)
  | none =>
    if password.length < 8 then
      (.weak, users)
    else
      let newUser : User :=
        { id := fresh.userId
          username := strToLower username
          password := c.hash password
          accessToken := hexEncode fresh.tokenBytes }
      (.created newUser.username newUser.accessToken newUser.id, users ++ [newUser])

/-- The outcome of the login handler body. -/
inductive LoginOut where
  | ok (username accessToken userId : String)
  | invalid
deriving DecidableEq

/-- app.post("/login") handler, identical in all variants: find the user
by lowercased username and compare the password with the stored hash. -/
def login (c : Crypto) (users : List User) (username password : String) : LoginOut :=
  match users.find? (fun w => w.username == strToLower username) with
  | some w =>
    if c.compare password w.password then .ok w.username w.accessToken w.id
    else .invalid
  | none => .invalid

/-- Comparison used by a descending mongo sort: a present value ranks
above a missing one, missing values rank equal. -/
def optLt : Option Nat → Option Nat → Bool
  | none, none => false
  | none, some _ => true
  | some _, none => false
  | some a, some b => a < b

/-- Stable insertion for a descending sort: the inserted document skips
past a resident one only when the resident key is strictly larger, so
equal-key documents keep their relative order. -/
def insertDesc (key : α → Option Nat) (a : α) : List α → List α
  | [] => [a]
  | b :: bs => if optLt (key a) (key b) then b :: insertDesc key a bs else a :: b :: bs

/-- Stable descending sort on an optional key, the behaviour of
.sort on a possibly-missing document path. -/
def sortDesc (key : α → Option Nat) : List α → List α
  | [] => []
  | a :: as => insertDesc key a (sortDesc key as)

/-- Numeric document paths of a note that a query or sort can read.  The
schema names the creation time `createAt`; any other path, in particular
`createdAt`, is missing on every stored note. -/
def noteSortField (n : Note) (key : String) : Option Nat :=
  if key = "createAt" then some n.createAt else none

/-- Numeric document paths of a packing-list item, as for notes. -/
def itemSortField (i : Item) (key : String) : Option Nat :=
  if key = "createAt" then some i.createAt else none

/-- String document paths of a packing-list item that a query filter can
read.  The schema has no `userId` path, so that key is missing on every
document. -/
def itemStrField (i : Item) : String → Option String
  | "heading" => some i.heading
  | "message" => some i.message
  | "user" => i.user
  | _ => none

/-- Whether a list of notes is ordered by creation time, newest first:
the order the spec requires of a list call. -/
def notesCreateAtDesc : List Note → Bool
  | [] => true
  | [_] => true
  | a :: b :: rest => decide (b.createAt ≤ a.createAt) && notesCreateAtDesc (b :: rest)

/-- The JSON responses the handlers can produce, tagged with payloads
where a claim needs them. -/
inductive Resp where
  | created (username accessToken userId : String)
  | duplicateUsername
  | weakPassword
  | loginOk (username accessToken userId : String)
  | invalidCredentials
  | unauthorized
  | serviceUnavailable
  | notesList (notes : List Note)
  | noteSaved (n : Note)
  | noteDeleted (n : Note)
  | noteNotFound
  | noteNotFound200
  | notesCompletedOk
  | itemsList (items : List Item)
  | itemSaved (i : Item)
  | itemDeleted (i : Item)
  | itemNotFound
  | itemUpdated (i : Item)
  | completedUpdated (i : Option Item)
  | failedValidation
  | caughtError
  | uncaughtError
  | externalApi
  | notHandled
deriving DecidableEq

/-- The HTTP status each response is sent with. -/
def Resp.status : Resp → Nat
  | .created _ _ _ => 201
  | .loginOk _ _ _ => 200
  | .unauthorized => 401
  | .serviceUnavailable => 503
  | .notesList _ => 200
  | .noteSaved _ => 200
  | .noteDeleted _ => 200
  | .noteNotFound200 => 200
  | .notesCompletedOk => 200
  | .itemsList _ => 200
  | .itemSaved _ => 200
  | .itemDeleted _ => 200
  | .itemUpdated _ => 200
  | .completedUpdated _ => 200
  | .uncaughtError => 500
  | .notHandled => 404
  | _ => 400

/-- What one middleware or route handler does with a request: answer, or
call next() with the (possibly updated) req.user context. -/
inductive Step where
  | respond (resp : Resp) (st : ServerState) (ran : List String)
  | next (ctx : Option User)

/-- The result of dispatching a request: the response, the store state
afterwards, and the names of the route-handler bodies that executed. -/
structure DResult where
  resp : Resp
  state : ServerState
  ran : List String
deriving DecidableEq

/-- One path segment of an Express route pattern. -/
inductive Seg where
  | lit (s : String)
  | param

def segMatch : Seg → String → Bool
  | .lit s, t => if s = t then true else false
  | .param, _ => true

def pathMatch : List Seg → List String → Bool
  | [], [] => true
  | p :: ps, t :: ts => segMatch p t && pathMatch ps ts
  | _, _ => false

/-- An Express route path: app.use registrations match every path, a
path registered without a leading slash can never match because request
paths always begin with one. -/
inductive RoutePath where
  | all
  | exact (segs : List Seg)
  | noSlash (segs : List Seg)

def routeMatch : RoutePath → List String → Bool
  | .all, _ => true
  | .exact ps, ts => pathMatch ps ts
  | .noSlash _, _ => false

/-- One app.use / app.METHOD registration, in source order. -/
structure Reg where
  method : Option Method
  path : RoutePath
  run : ServerState → Request → Option User → Step

def methodMatch : Option Method → Method → Bool
  | none, _ => true
  | some m, m2 => if m = m2 then true else false

def regMatches (r : Reg) (req : Request) : Bool :=
  methodMatch r.method req.method && routeMatch r.path req.path

/-- The Express router: scan the registrations in order; a match runs
its middleware or handler, and next() resumes the scan with the carried
req.user context.  Falling off the end is the router's 404. -/
def runRegs : List Reg → ServerState → Request → Option User → DResult
  | [], st, _, _ => ⟨.notHandled, st, []⟩
  | r :: rest, st, req, ctx =>
    if regMatches r req then
      match r.run st req ctx with
      | .respond resp st' ran => ⟨resp, st', ran⟩
      | .next ctx' => runRegs rest st req ctx'
    else runRegs rest st req ctx

/-- Note validation as performed by mongoose at save time: required
rejects a missing or empty value, heading is capped at 50 after trim,
message needs at least 5 characters after trim, tags must belong to the
schema enum. -/
def validateNote (tagEnum : List String) (heading himsg tags : Option String) :
    Option (String × String × String) :=
  match heading, himsg, tags with
  | some h, some m, some t =>
    let h := strTrim h
    let m := strTrim m
    if h.length = 0 then none
    else if 50 < h.length then none
    else if m.length < 5 then none
    else if tagEnum.contains t then some (h, m, t) else none
  | _, _, _ => none

/-- Packing-list validation: required heading with a variant-specific
minimum length and a cap of 50 after trim, required message. -/
def validateItem (headingMin : Nat) (heading himsg : Option String) :
    Option (String × String) :=
  match heading, himsg with
  | some h, some m =>
    let h := strTrim h
    let m := strTrim m
    if h.length = 0 then none
    else if h.length < headingMin then none
    else if 50 < h.length then none
    else if m.length = 0 then none
    else some (h, m)
  | _, _ => none

/-- Replace the first document matching the filter, the effect of a
mongo findOneAndUpdate / findByIdAndUpdate. -/
def updateFirst (p : α → Bool) (f : α → α) : List α → List α
  | [] => []
  | a :: as => if p a then f a :: as else a :: updateFirst p f as

/-- The findOne of authenticateUser: the Authorization header against
the stored accessToken.  An absent header reaches findOne with an
undefined accessToken; mongoose strips undefined from query filters, so
that query matches the first stored user. -/
def tokenLookup (st : ServerState) (auth : Option String) : Option User :=
  match auth with
  | some tok => st.users.find? (fun w => w.accessToken == tok)
  | none => st.users.head?

/-- authenticateUser in server.js and part_001: look the token up,
answer 401 on a miss, call next() on a hit WITHOUT attaching the user to
the request.  A store failure lands in catch (400). -/
def authStep (st : ServerState) (req : Request) (ctx : Option User) : Step :=
  if st.readyState = 1 then
    match tokenLookup st req.auth with
    | some _ => .next ctx
    | none => .respond .unauthorized st []
  else .respond .caughtError st []

/-- authenticateUser in part_000: same lookup, but on a hit the found
user is attached as req.user before next(). -/
def authSetUserStep (st : ServerState) (req : Request) (_ : Option User) : Step :=
  if st.readyState = 1 then
    match tokenLookup st req.auth with
    | some w => .next (some w)
    | none => .respond .unauthorized st []
  else .respond .caughtError st []

/-- The readiness app.use middleware: 503 unless readyState is 1. -/
def readinessStep (st : ServerState) (_ : Request) (ctx : Option User) : Step :=
  if st.readyState = 1 then .next ctx else .respond .serviceUnavailable st []

/-- The register route handler.  A missing username throws on
toLowerCase before any query; with the store down the findOne await
fails; a missing password throws on .length only after the duplicate
check has passed; all three land in catch (400). -/
def registerStep (c : Crypto) (fresh : Fresh) (st : ServerState) (req : Request)
    (_ : Option User) : Step :=
  match req.body.username with
  | none => .respond .caughtError st []
  | some u =>
    if st.readyState = 1 then
      match req.body.password with
      | some p =>
        match register c fresh st.users u p with
        | (.duplicate, us) => .respond .duplicateUsername { st with users := us } ["register"]
        | (.weak, us) => .respond .weakPassword { st with users := us } ["register"]
        | (.created un tok uid, us) =>
          .respond (.created un tok uid) { st with users := us } ["register"]
      | none =>
        match st.users.find? (fun w => w.username == strToLower u) with
        | some _ => .respond .duplicateUsername st ["register"]
        | none => .respond .caughtError st ["register"]
    else .respond .caughtError st ["register"]

/-- The login route handler.  A missing password reaches compareSync
only when a user was found, and compareSync throws on undefined. -/
def loginStep (c : Crypto) (st : ServerState) (req : Request)
    (_ : Option User) : Step :=
  match req.body.username with
  | none => .respond .caughtError st []
  | some u =>
    if st.readyState = 1 then
      match req.body.password with
      | some p =>
        match login c st.users u p with
        | .ok un tok uid => .respond (.loginOk un tok uid) st ["login"]
        | .invalid => .respond .invalidCredentials st ["login"]
      | none =>
        match st.users.find? (fun w => w.username == strToLower u) with
        | some _ => .respond .caughtError st ["login"]
        | none => .respond .invalidCredentials st ["login"]
    else .respond .caughtError st ["login"]

/-- The /home, /map and /markers handlers only proxy an external HTTP
API and never touch the store. -/
def externalStep (st : ServerState) (_ : Request) (_ : Option User) : Step :=
  .respond .externalApi st []

/-- PersonalNotes.find with an owner filter followed by
.sort with the key createdAt, a path no note document carries. -/
def listNotesQuery (st : ServerState) (owner : Option String) : List Note :=
  sortDesc (fun n => noteSortField n "createdAt")
    (st.notes.filter (fun n => n.user == owner))

/-- server.js GET /notes/:userId: the owner is taken from the path
parameter, not from the token. -/
def sjGetNotesStep (st : ServerState) (req : Request) (_ : Option User) : Step :=
  if st.readyState = 1 then
    .respond (.notesList (listNotesQuery st (some (req.path.getD 1 "")))) st ["sjGetNotes"]
  else .respond .caughtError st ["sjGetNotes"]

/-- POST /notes in both crud variants: destructure heading, message and
tags from the body, save with user taken from req.user (undefined in
server.js, the authenticated user in part_000); mongoose validates
before persisting. -/
def postNotesStep (fresh : Fresh) (tagEnum : List String) (name : String)
    (st : ServerState) (req : Request) (ctx : Option User) : Step :=
  match validateNote tagEnum req.body.heading req.body.message req.body.tags with
  | some vhm =>
    if st.readyState = 1 then
      let n : Note :=
        { id := fresh.noteId
          heading := vhm.1
          message := vhm.2.1
          tags := vhm.2.2
          createAt := fresh.now
          user := ctx.map (fun w : User => w.id) }
      .respond (.noteSaved n) { st with notes := st.notes ++ [n] } [name]
    else .respond .caughtError st [name]
  | none => .respond .failedValidation st [name]

/-- server.js DELETE /notes/:notesId: findByIdAndDelete matches on _id
alone, with no owner condition. -/
def sjDeleteNotesStep (st : ServerState) (req : Request) (_ : Option User) : Step :=
  if st.readyState = 1 then
    match st.notes.find? (fun n => n.id == req.path.getD 1 "") with
    | some n =>
      .respond (.noteDeleted n)
        { st with notes := st.notes.eraseP (fun m => m.id == req.path.getD 1 "") } ["sjDeleteNotes"]
    | none => .respond .noteNotFound st ["sjDeleteNotes"]
  else .respond .caughtError st ["sjDeleteNotes"]

/-- server.js PATCH /notes/:notesId/completed: the body calls the model
as a plain function, which constructs an in-memory document and runs no
query or update, so the handler answers 200 and the store is untouched. -/
def sjPatchNotesCompletedStep (st : ServerState) (_ : Request) (_ : Option User) : Step :=
  .respond .notesCompletedOk st ["sjPatchNotesCompleted"]

/-- server.js GET /packinglist/:userId: the filter is written
as the shorthand for userId equals the path parameter, and the schema
has no userId path, so no document matches. -/
def sjGetPackingStep (st : ServerState) (req : Request) (_ : Option User) : Step :=
  if st.readyState = 1 then
    .respond (.itemsList (sortDesc (fun i => itemSortField i "createdAt")
      (st.packing.filter (fun i => itemStrField i "userId" == some (req.path.getD 1 ""))))) st
      ["sjGetPacking"]
  else .respond .caughtError st ["sjGetPacking"]

/-- server.js POST /packinglist: destructures heading, message and
isCompleted; user comes from req.user, which server.js never sets. -/
def sjPostPackingStep (fresh : Fresh) (st : ServerState) (req : Request)
    (ctx : Option User) : Step :=
  match validateItem 5 req.body.heading req.body.message with
  | some hm =>
    if st.readyState = 1 then
      let i : Item :=
        { id := fresh.itemId
          heading := hm.1
          message := hm.2
          createAt := fresh.now
          isCompleted := req.body.isCompleted.getD false
          user := ctx.map (fun w : User => w.id) }
      .respond (.itemSaved i) { st with packing := st.packing ++ [i] } ["sjPostPacking"]
    else .respond .caughtError st ["sjPostPacking"]
  | none => .respond .failedValidation st ["sjPostPacking"]

/-- server.js DELETE /packinglist/:userId: the handler destructures
listId, but the route parameter is named userId, so listId is undefined
and findByIdAndDelete on an undefined id raises a cast error that lands
in catch. -/
def sjDeletePackingStep (st : ServerState) (_ : Request) (_ : Option User) : Step :=
  .respond .caughtError st ["sjDeletePacking"]

/-- server.js PATCH /packinglist/:listId/update: findByIdAndUpdate on
_id alone sets the supplied fields (undefined body fields are stripped
from the update) and answers with the new document, or 400 on a miss. -/
def itemMerge (req : Request) (j : Item) : Item :=
  { j with heading := req.body.heading.getD j.heading
           message := req.body.message.getD j.message }

def sjPatchPackingUpdateStep (st : ServerState) (req : Request) (_ : Option User) : Step :=
  if st.readyState = 1 then
    match st.packing.find? (fun i => i.id == req.path.getD 1 "") with
    | some i =>
      .respond (.itemUpdated (itemMerge req i))
        { st with packing := updateFirst (fun j => j.id == req.path.getD 1 "") (itemMerge req) st.packing }
        ["sjPatchPackingUpdate"]
    | none => .respond .itemNotFound st ["sjPatchPackingUpdate"]
  else .respond .caughtError st ["sjPatchPackingUpdate"]

/-- Setting isCompleted on a packing-list item: part_000 PATCH
/packinglist/:listId/completed and the unreachable server.js twin.
findOneAndUpdate matches on _id alone — no owner condition — and the
handler answers 200 whether or not a document matched. -/
def itemSetCompleted (req : Request) (j : Item) : Item :=
  { j with isCompleted := req.body.isCompleted.getD j.isCompleted }

def patchPackingCompletedStep (name : String) (st : ServerState) (req : Request)
    (_ : Option User) : Step :=
  if st.readyState = 1 then
    match st.packing.find? (fun i => i.id == req.path.getD 1 "") with
    | some i =>
      .respond (.completedUpdated (some (itemSetCompleted req i)))
        { st with packing := updateFirst (fun j => j.id == req.path.getD 1 "") (itemSetCompleted req) st.packing }
        [name]
    | none => .respond (.completedUpdated none) st [name]
  else .respond .caughtError st [name]

/-- part_000 GET /notes: req.user._id is read before the try block, so a
missing req.user would throw an uncaught TypeError; with a user attached
the owner filter restricts the query to that user's notes. -/
def p0GetNotesStep (st : ServerState) (_ : Request) (ctx : Option User) : Step :=
  match ctx with
  | none => .respond .uncaughtError st []
  | some w =>
    if st.readyState = 1 then
      .respond (.notesList (listNotesQuery st (some w.id))) st ["p0GetNotes"]
    else .respond .caughtError st ["p0GetNotes"]

/-- part_000 DELETE /notes/:notesId: findOneAndDelete with both the
owner and the _id in the filter, 400 not-found on a miss. -/
def p0DeleteNotesStep (st : ServerState) (req : Request) (ctx : Option User) : Step :=
  match ctx with
  | none => .respond .uncaughtError st []
  | some w =>
    if st.readyState = 1 then
      match st.notes.find? (fun n => n.user == some w.id && n.id == req.path.getD 1 "") with
      | some n =>
        .respond (.noteDeleted n)
          { st with notes := st.notes.eraseP (fun n => n.user == some w.id && n.id == req.path.getD 1 "") }
          ["p0DeleteNotes"]
      | none => .respond .noteNotFound st ["p0DeleteNotes"]
    else .respond .caughtError st ["p0DeleteNotes"]

/-- part_000 PATCH /notes/:notesId/update: findByIdAndUpdate matches on
_id alone and merges the body fields (undefined ones are stripped, and
the schema path user is merged like any other); on a hit the success
line then reads the undeclared identifier updateIsCompleted, so the
ReferenceError lands in catch (400) after the update has been written;
a miss answers status 200 with a not-found message. -/
def noteMerge (req : Request) (n : Note) : Note :=
  { n with heading := req.body.heading.getD n.heading
           message := req.body.message.getD n.message
           tags := req.body.tags.getD n.tags
           user := match req.body.user with | some v => some v | none => n.user }

def p0PatchNotesUpdateStep (st : ServerState) (req : Request) (_ : Option User) : Step :=
  if st.readyState = 1 then
    match st.notes.find? (fun n => n.id == req.path.getD 1 "") with
    | some _ =>
      .respond .caughtError
        { st with notes := updateFirst (fun n => n.id == req.path.getD 1 "") (noteMerge req) st.notes }
        ["p0PatchNotesUpdate"]
    | none => .respond .noteNotFound200 st ["p0PatchNotesUpdate"]
  else .respond .caughtError st ["p0PatchNotesUpdate"]

/-- part_000 GET /packinglist: owner-scoped find, with req.user._id read
before the try block as in the notes routes. -/
def p0GetPackingStep (st : ServerState) (_ : Request) (ctx : Option User) : Step :=
  match ctx with
  | none => .respond .uncaughtError st []
  | some w =>
    if st.readyState = 1 then
      .respond (.itemsList (sortDesc (fun i => itemSortField i "createdAt")
        (st.packing.filter (fun i => i.user == some w.id)))) st ["p0GetPacking"]
    else .respond .caughtError st ["p0GetPacking"]

/-- part_000 POST /packinglist: destructures heading and message only,
so isCompleted takes its schema default false; user comes from
req.user. -/
def p0PostPackingStep (fresh : Fresh) (st : ServerState) (req : Request)
    (ctx : Option User) : Step :=
  match validateItem 2 req.body.heading req.body.message with
  | some hm =>
    if st.readyState = 1 then
      let i : Item :=
        { id := fresh.itemId
          heading := hm.1
          message := hm.2
          createAt := fresh.now
          isCompleted := false
          user := ctx.map (fun w : User => w.id) }
      .respond (.itemSaved i) { st with packing := st.packing ++ [i] } ["p0PostPacking"]
    else .respond .caughtError st ["p0PostPacking"]
  | none => .respond .failedValidation st ["p0PostPacking"]

/-- part_000 DELETE /packinglist/:notesId: owner-scoped findOneAndDelete
like the notes delete. -/
def p0DeletePackingStep (st : ServerState) (req : Request) (ctx : Option User) : Step :=
  match ctx with
  | none => .respond .uncaughtError st []
  | some w =>
    if st.readyState = 1 then
      match st.packing.find? (fun i => i.user == some w.id && i.id == req.path.getD 1 "") with
      | some i =>
        .respond (.itemDeleted i)
          { st with packing := st.packing.eraseP (fun i => i.user == some w.id && i.id == req.path.getD 1 "") }
          ["p0DeletePacking"]
      | none => .respond .itemNotFound st ["p0DeletePacking"]
    else .respond .caughtError st ["p0DeletePacking"]

/-- part_000 PATCH /packinglist/:listId/update: no auth middleware
matches this three-segment path, so req.user is undefined and reading
req.user.isCompleted before the try block throws an uncaught TypeError;
were a user attached, findByIdAndUpdate would receive a conditions
object where an id is expected and the cast error would land in
catch. -/
def p0PatchPackingUpdateStep (st : ServerState) (_ : Request) (ctx : Option User) : Step :=
  match ctx with
  | none => .respond .uncaughtError st []
  | some _ => .respond .caughtError st ["p0PatchPackingUpdate"]

/-- The tag set of the server.js note schema. -/
def sjTagEnum : List String := ["food", "travel", "city"]

/-- The tag set of the part_000 note schema. -/
def p0TagEnum : List String :=
  ["accommodation", "activities", "city", "food n drinks", "memories", "sightseeing", "travel"]

/-- Every registration of src/server.js, in source order.  The second
readiness app.use sits between the last packing-list route and the end
of the stack. -/
def serverJsRegs (c : Crypto) (fresh : Fresh) : List Reg :=
  [ ⟨some .post, .exact [.lit "register"], registerStep c fresh⟩
  , ⟨some .post, .exact [.lit "login"], loginStep c⟩
  , ⟨some .get, .exact [.lit "Main"], authStep⟩
  , ⟨some .get, .exact [.lit "home"], externalStep⟩
  , ⟨some .get, .exact [.lit "map"], externalStep⟩
  , ⟨some .get, .exact [.lit "markers"], externalStep⟩
  , ⟨some .get, .exact [.lit "notes", .param], authStep⟩
  , ⟨some .get, .exact [.lit "notes", .param], sjGetNotesStep⟩
  , ⟨some .post, .exact [.lit "notes"], authStep⟩
  , ⟨some .post, .exact [.lit "notes"], postNotesStep fresh sjTagEnum "sjPostNotes"⟩
  , ⟨some .delete, .exact [.lit "notes", .param], authStep⟩
  , ⟨some .delete, .exact [.lit "notes", .param], sjDeleteNotesStep⟩
  , ⟨some .patch, .exact [.lit "notes", .param, .lit "completed"], sjPatchNotesCompletedStep⟩
  , ⟨none, .all, readinessStep⟩
  , ⟨some .get, .exact [.lit "packinglist", .param], authStep⟩
  , ⟨some .get, .exact [.lit "packinglist", .param], sjGetPackingStep⟩
  , ⟨some .post, .exact [.lit "packinglist"], authStep⟩
  , ⟨some .post, .exact [.lit "packinglist"], sjPostPackingStep fresh⟩
  , ⟨some .delete, .exact [.lit "packinglist", .param], authStep⟩
  , ⟨some .delete, .exact [.lit "packinglist", .param], sjDeletePackingStep⟩
  , ⟨some .patch, .exact [.lit "packinglist", .param], authStep⟩
  , ⟨some .patch, .exact [.lit "packinglist", .param, .lit "update"], sjPatchPackingUpdateStep⟩
  , ⟨some .patch, .noSlash [.lit "packinglist", .param, .lit "completed"],
      patchPackingCompletedStep "sjPatchPackingCompleted"⟩
  , ⟨none, .all, readinessStep⟩ ]

/-- Dispatch one request against the server.js application. -/
def serverJs (c : Crypto) (fresh : Fresh) (st : ServerState) (req : Request) : DResult :=
  runRegs (serverJsRegs c fresh) st req none

/-- Every registration of src/unnamed/part_000, in source order.  The
auth middleware paired with the notes update handler is registered on
the two-segment path /notes/:notesId while the handler answers on
/notes/:notesId/update, and likewise for the packing-list update pair,
so neither update handler is behind the gate. -/
def part000Regs (c : Crypto) (fresh : Fresh) : List Reg :=
  [ ⟨some .post, .exact [.lit "register"], registerStep c fresh⟩
  , ⟨some .post, .exact [.lit "login"], loginStep c⟩
  , ⟨some .get, .exact [.lit "notes"], authSetUserStep⟩
  , ⟨some .get, .exact [.lit "notes"], p0GetNotesStep⟩
  , ⟨some .post, .exact [.lit "notes"], authSetUserStep⟩
  , ⟨some .post, .exact [.lit "notes"], postNotesStep fresh p0TagEnum "p0PostNotes"⟩
  , ⟨some .delete, .exact [.lit "notes", .param], authSetUserStep⟩
  , ⟨some .delete, .exact [.lit "notes", .param], p0DeleteNotesStep⟩
  , ⟨some .patch, .exact [.lit "notes", .param], authSetUserStep⟩
  , ⟨some .patch, .exact [.lit "notes", .param, .lit "update"], p0PatchNotesUpdateStep⟩
  , ⟨none, .all, readinessStep⟩
  , ⟨some .get, .exact [.lit "packinglist"], authSetUserStep⟩
  , ⟨some .get, .exact [.lit "packinglist"], p0GetPackingStep⟩
  , ⟨some .post, .exact [.lit "packinglist"], authSetUserStep⟩
  , ⟨some .post, .exact [.lit "packinglist"], p0PostPackingStep fresh⟩
  , ⟨some .delete, .exact [.lit "packinglist", .param], authSetUserStep⟩
  , ⟨some .delete, .exact [.lit "packinglist", .param], p0DeletePackingStep⟩
  , ⟨some .patch, .exact [.lit "packinglist", .param], authSetUserStep⟩
  , ⟨some .patch, .exact [.lit "packinglist", .param, .lit "update"], p0PatchPackingUpdateStep⟩
  , ⟨some .patch, .exact [.lit "packinglist", .param, .lit "completed"], authSetUserStep⟩
  , ⟨some .patch, .exact [.lit "packinglist", .param, .lit "completed"],
      patchPackingCompletedStep "p0PatchPackingCompleted"⟩ ]

/-- Dispatch one request against the part_000 application. -/
def part000 (c : Crypto) (fresh : Fresh) (st : ServerState) (req : Request) : DResult :=
  runRegs (part000Regs c fresh) st req none

/-- Abstract bcrypt instance for concrete evaluations: hashing prefixes
the password, comparison checks that prefix. -/
def cryptoEx : Crypto :=
  ⟨fun s => String.append "h:" s, fun p h => h == String.append "h:" p⟩

/-- Concrete oracle: 128 random bytes, fresh object ids, a clock read. -/
def freshEx : Fresh := ⟨List.replicate 128 171, "newU", "newN", "newI", 100⟩

def userA : User := ⟨"uA", "alice", "h:password1", "tokA"⟩

def userB : User := ⟨"uB", "bob", "h:password2", "tokB"⟩

/-- A note owned by user A. -/
def noteA : Note := ⟨"n1", "Trip", "Remember passport", "travel", 10, some "uA"⟩

/-- A packing-list item owned by user A. -/
def itemA : Item := ⟨"i1", "Socks", "Five pairs", 10, false, some "uA"⟩

/-- Store holding users A and B, A's note and A's item, connection up. -/
def stAB : ServerState := ⟨[userA, userB], [noteA], [itemA], 1⟩

/-- The same store with the connection down. -/
def stDown : ServerState := ⟨[userA, userB], [noteA], [itemA], 0⟩

/-- Two notes of user A in insertion order, the older one first. -/
def noteOld : Note := ⟨"m1", "Day one", "Arrived late", "travel", 10, some "uA"⟩

def noteNew : Note := ⟨"m2", "Day two", "Saw the castle", "travel", 20, some "uA"⟩

/-- Store whose notes collection lists A's notes in creation order. -/
def stC8 : ServerState := ⟨[userA, userB], [noteOld, noteNew], [], 1⟩

/-- A note-creation body that also carries a client-supplied owner. -/
def c3body : Body :=
  { heading := some "Lisbon", message := some "Pack the charger", tags := some "travel",
    user := some "uB" }

/-- A step outcome respects a users collection when an answer leaves it
as a prefix of the resulting one (appending is the only allowed write). -/
def stepUsersOk (us : List User) : Step → Prop
  | .respond _ st2 _ => ∃ rest, st2.users = us ++ rest
  | .next _ => True

/-- A middleware or handler respects the users collection on every
input. -/
def stepKeepsUsers (f : ServerState → Request → Option User → Step) : Prop :=
  ∀ st req ctx, stepUsersOk st.users (f st req ctx)

theorem hexChars_length (bs : List Nat) : (hexChars bs).length = 2 * bs.length := by
  induction bs with
  | nil => rfl
  | cons b bs ih => simp [hexChars, ih]; ring

theorem hexEncode_length (bs : List Nat) : (hexEncode bs).length = 2 * bs.length := by
  simpa [hexEncode, String.length] using hexChars_length bs

/-- When the key is missing on the inserted element and on the whole
list, the element stays in front. -/
theorem insertDesc_none (key : α → Option Nat) (a : α) (l : List α)
    (ha : key a = none) (hl : ∀ x ∈ l, key x = none) :
    insertDesc key a l = a :: l := by
  cases l with
  | nil => rfl
  | cons b bs =>
    have hb : key b = none := hl b (List.mem_cons_self b bs)
    simp [insertDesc, ha, hb, optLt]

/-- Sorting on an everywhere-missing key returns the list unchanged:
this is what .sort does when the named path exists on no document. -/
theorem sortDesc_none (key : α → Option Nat) (l : List α)
    (hl : ∀ x ∈ l, key x = none) : sortDesc key l = l := by
  induction l with
  | nil => rfl
  | cons a as ih =>
    have ha : key a = none := hl a (List.mem_cons_self a as)
    have has : ∀ x ∈ as, key x = none := fun x hx => hl x (List.mem_cons_of_mem a hx)
    simp [sortDesc, ih has, insertDesc_none key a as ha has]

theorem register_users (c : Crypto) (fresh : Fresh) (users : List User) (u p : String) :
    ∃ rest, (register c fresh users u p).2 = users ++ rest ∧
      ∀ w ∈ rest, w.accessToken = hexEncode fresh.tokenBytes := by
  unfold register
  split
  · exact ⟨[], by simp⟩
  · split
    · exact ⟨[], by simp⟩
    · refine ⟨[_], rfl, ?_⟩
      intro w hw
      simp only [List.mem_singleton] at hw
      rw [hw]

theorem register_snd_users {c : Crypto} {fresh : Fresh} {users : List User} {u p : String}
    {out : RegisterOut} {us : List User}
    (heq : register c fresh users u p = (out, us)) : ∃ rest, us = users ++ rest := by
  obtain ⟨rest, hrest, -⟩ := register_users c fresh users u p
  rw [heq] at hrest
  exact ⟨rest, hrest⟩

theorem keeps_registerStep (c : Crypto) (fresh : Fresh) :
    stepKeepsUsers (registerStep c fresh) := by
  intro st req ctx
  unfold registerStep
  repeat' split
  all_goals first
  | trivial
  | exact ⟨[], (List.append_nil _).symm⟩
  | (rename_i us heq
     exact register_snd_users heq)

theorem keeps_authStep : stepKeepsUsers authStep := by
  intro st req ctx
  unfold authStep
  repeat' split
  all_goals first
  | trivial
  | exact ⟨[], (List.append_nil _).symm⟩

theorem keeps_authSetUserStep : stepKeepsUsers authSetUserStep := by
  intro st req ctx
  unfold authSetUserStep
  repeat' split
  all_goals first
  | trivial
  | exact ⟨[], (List.append_nil _).symm⟩

theorem keeps_readinessStep : stepKeepsUsers readinessStep := by
  intro st req ctx
  unfold readinessStep
  repeat' split
  all_goals first
  | trivial
  | exact ⟨[], (List.append_nil _).symm⟩

theorem keeps_loginStep (c : Crypto) : stepKeepsUsers (loginStep c) := by
  intro st req ctx
  unfold loginStep
  repeat' split
  all_goals first
  | trivial
  | exact ⟨[], (List.append_nil _).symm⟩

theorem keeps_externalStep : stepKeepsUsers externalStep := by
  intro st req ctx
  exact ⟨[], (List.append_nil _).symm⟩

theorem keeps_sjGetNotesStep : stepKeepsUsers sjGetNotesStep := by
  intro st req ctx
  unfold sjGetNotesStep
  repeat' split
  all_goals first
  | trivial
  | exact ⟨[], (List.append_nil _).symm⟩

theorem keeps_postNotesStep (fresh : Fresh) (tagEnum : List String) (name : String) :
    stepKeepsUsers (postNotesStep fresh tagEnum name) := by
  intro st req ctx
  unfold postNotesStep
  repeat' split
  all_goals first
  | trivial
  | exact ⟨[], (List.append_nil _).symm⟩

theorem keeps_sjDeleteNotesStep : stepKeepsUsers sjDeleteNotesStep := by
  intro st req ctx
  unfold sjDeleteNotesStep
  repeat' split
  all_goals first
  | trivial
  | exact ⟨[], (List.append_nil _).symm⟩

theorem keeps_sjPatchNotesCompletedStep : stepKeepsUsers sjPatchNotesCompletedStep := by
  intro st req ctx
  exact ⟨[], (List.append_nil _).symm⟩

theorem keeps_sjGetPackingStep : stepKeepsUsers sjGetPackingStep := by
  intro st req ctx
  unfold sjGetPackingStep
  repeat' split
  all_goals first
  | trivial
  | exact ⟨[], (List.append_nil _).symm⟩

theorem keeps_sjPostPackingStep (fresh : Fresh) : stepKeepsUsers (sjPostPackingStep fresh) := by
  intro st req ctx
  unfold sjPostPackingStep
  repeat' split
  all_goals first
  | trivial
  | exact ⟨[], (List.append_nil _).symm⟩

theorem keeps_sjDeletePackingStep : stepKeepsUsers sjDeletePackingStep := by
  intro st req ctx
  exact ⟨[], (List.append_nil _).symm⟩

theorem keeps_sjPatchPackingUpdateStep : stepKeepsUsers sjPatchPackingUpdateStep := by
  intro st req ctx
  unfold sjPatchPackingUpdateStep
  repeat' split
  all_goals first
  | trivial
  | exact ⟨[], (List.append_nil _).symm⟩

theorem keeps_patchPackingCompletedStep (name : String) :
    stepKeepsUsers (patchPackingCompletedStep name) := by
  intro st req ctx
  unfold patchPackingCompletedStep
  repeat' split
  all_goals first
  | trivial
  | exact ⟨[], (List.append_nil _).symm⟩

theorem keeps_p0GetNotesStep : stepKeepsUsers p0GetNotesStep := by
  intro st req ctx
  unfold p0GetNotesStep
  repeat' split
  all_goals first
  | trivial
  | exact ⟨[], (List.append_nil _).symm⟩

theorem keeps_p0DeleteNotesStep : stepKeepsUsers p0DeleteNotesStep := by
  intro st req ctx
  unfold p0DeleteNotesStep
  repeat' split
  all_goals first
  | trivial
  | exact ⟨[], (List.append_nil _).symm⟩

theorem keeps_p0PatchNotesUpdateStep : stepKeepsUsers p0PatchNotesUpdateStep := by
  intro st req ctx
  unfold p0PatchNotesUpdateStep
  repeat' split
  all_goals first
  | trivial
  | exact ⟨[], (List.append_nil _).symm⟩

theorem keeps_p0GetPackingStep : stepKeepsUsers p0GetPackingStep := by
  intro st req ctx
  unfold p0GetPackingStep
  repeat' split
  all_goals first
  | trivial
  | exact ⟨[], (List.append_nil _).symm⟩

theorem keeps_p0PostPackingStep (fresh : Fresh) : stepKeepsUsers (p0PostPackingStep fresh) := by
  intro st req ctx
  unfold p0PostPackingStep
  repeat' split
  all_goals first
  | trivial
  | exact ⟨[], (List.append_nil _).symm⟩

theorem keeps_p0DeletePackingStep : stepKeepsUsers p0DeletePackingStep := by
  intro st req ctx
  unfold p0DeletePackingStep
  repeat' split
  all_goals first
  | trivial
  | exact ⟨[], (List.append_nil _).symm⟩

theorem keeps_p0PatchPackingUpdateStep : stepKeepsUsers p0PatchPackingUpdateStep := by
  intro st req ctx
  unfold p0PatchPackingUpdateStep
  repeat' split
  all_goals first
  | trivial
  | exact ⟨[], (List.append_nil _).symm⟩

theorem runRegs_congr (regs : List Reg) (req1 req2 : Request)
    (hm : ∀ r ∈ regs, regMatches r req1 = regMatches r req2)
    (hr : ∀ r ∈ regs, regMatches r req1 = true →
      ∀ st ctx, r.run st req1 ctx = r.run st req2 ctx) :
    ∀ st ctx, runRegs regs st req1 ctx = runRegs regs st req2 ctx := by
  induction regs with
  | nil => intro st ctx; rfl
  | cons r rest ih =>
    intro st ctx
    have hm1 := hm r (List.mem_cons_self r rest)
    have hmr : ∀ x ∈ rest, regMatches x req1 = regMatches x req2 :=
      fun x hx => hm x (List.mem_cons_of_mem r hx)
    have hrr : ∀ x ∈ rest, regMatches x req1 = true →
        ∀ st2 ctx2, x.run st2 req1 ctx2 = x.run st2 req2 ctx2 :=
      fun x hx => hr x (List.mem_cons_of_mem r hx)
    simp only [runRegs, hm1]
    split
    · rename_i hmatch
      have hr1 := hr r (List.mem_cons_self r rest) (by rw [hm1]; exact hmatch) st ctx
      rw [hr1]
      cases h : r.run st req2 ctx with
      | respond resp st2 ran => rfl
      | next ctx2 => exact ih hmr hrr st ctx2
    · exact ih hmr hrr st ctx

theorem runRegs_users (regs : List Reg) (h : ∀ r ∈ regs, stepKeepsUsers r.run) :
    ∀ st req ctx, ∃ rest, (runRegs regs st req ctx).state.users = st.users ++ rest := by
  induction regs with
  | nil => intro st req ctx; exact ⟨[], by simp [runRegs]⟩
  | cons r rest ih =>
    intro st req ctx
    have h1 := h r (List.mem_cons_self r rest) st req ctx
    have hr : ∀ x ∈ rest, stepKeepsUsers x.run := fun x hx => h x (List.mem_cons_of_mem r hx)
    simp only [runRegs]
    split
    · cases hstep : r.run st req ctx with
      | respond resp st2 ran =>
        rw [hstep] at h1
        exact h1
      | next ctx2 => exact ih hr st req ctx2
    · exact ih hr st req ctx

theorem serverJsRegs_keep (c : Crypto) (fresh : Fresh) :
    ∀ r ∈ serverJsRegs c fresh, stepKeepsUsers r.run := by
  intro r hrr
  simp only [serverJsRegs, List.mem_cons, List.not_mem_nil, or_false] at hrr
  rcases hrr with rfl | rfl | rfl | rfl | rfl | rfl | rfl | rfl | rfl | rfl | rfl | rfl | rfl |
    rfl | rfl | rfl | rfl | rfl | rfl | rfl | rfl | rfl | rfl | rfl
  · exact keeps_registerStep c fresh
  · exact keeps_loginStep c
  · exact keeps_authStep
  · exact keeps_externalStep
  · exact keeps_externalStep
  · exact keeps_externalStep
  · exact keeps_authStep
  · exact keeps_sjGetNotesStep
  · exact keeps_authStep
  · exact keeps_postNotesStep fresh sjTagEnum "sjPostNotes"
  · exact keeps_authStep
  · exact keeps_sjDeleteNotesStep
  · exact keeps_sjPatchNotesCompletedStep
  · exact keeps_readinessStep
  · exact keeps_authStep
  · exact keeps_sjGetPackingStep
  · exact keeps_authStep
  · exact keeps_sjPostPackingStep fresh
  · exact keeps_authStep
  · exact keeps_sjDeletePackingStep
  · exact keeps_authStep
  · exact keeps_sjPatchPackingUpdateStep
  · exact keeps_patchPackingCompletedStep "sjPatchPackingCompleted"
  · exact keeps_readinessStep

theorem part000Regs_keep (c : Crypto) (fresh : Fresh) :
    ∀ r ∈ part000Regs c fresh, stepKeepsUsers r.run := by
  intro r hrr
  simp only [part000Regs, List.mem_cons, List.not_mem_nil, or_false] at hrr
  rcases hrr with rfl | rfl | rfl | rfl | rfl | rfl | rfl | rfl | rfl | rfl | rfl | rfl | rfl |
    rfl | rfl | rfl | rfl | rfl | rfl | rfl | rfl
  · exact keeps_registerStep c fresh
  · exact keeps_loginStep c
  · exact keeps_authSetUserStep
  · exact keeps_p0GetNotesStep
  · exact keeps_authSetUserStep
  · exact keeps_postNotesStep fresh p0TagEnum "p0PostNotes"
  · exact keeps_authSetUserStep
  · exact keeps_p0DeleteNotesStep
  · exact keeps_authSetUserStep
  · exact keeps_p0PatchNotesUpdateStep
  · exact keeps_readinessStep
  · exact keeps_authSetUserStep
  · exact keeps_p0GetPackingStep
  · exact keeps_authSetUserStep
  · exact keeps_p0PostPackingStep fresh
  · exact keeps_authSetUserStep
  · exact keeps_p0DeletePackingStep
  · exact keeps_authSetUserStep
  · exact keeps_p0PatchPackingUpdateStep
  · exact keeps_authSetUserStep
  · exact keeps_patchPackingCompletedStep "p0PatchPackingCompleted"

theorem serverJs_users (c : Crypto) (fresh : Fresh) (st : ServerState) (req : Request) :
    ∃ rest, (serverJs c fresh st req).state.users = st.users ++ rest :=
  runRegs_users (serverJsRegs c fresh) (serverJsRegs_keep c fresh) st req none

theorem part000_users (c : Crypto) (fresh : Fresh) (st : ServerState) (req : Request) :
    ∃ rest, (part000 c fresh st req).state.users = st.users ++ rest :=
  runRegs_users (part000Regs c fresh) (part000Regs_keep c fresh) st req none

/-- C1: the claim says delete and update on notes and packing-list items
succeed only when the stored owner equals the caller, with NotFound
otherwise.  The code violates this: with users A and B and A's note n1,
user B's authenticated DELETE /notes/n1 against server.js deletes the
note and answers success (findByIdAndDelete filters by _id only), and
B's authenticated PATCH /packinglist/i1/completed against part_000
flips A's item to completed and answers success (findOneAndUpdate
filters by _id only and never answers NotFound). -/
theorem c1_owner_not_checked :
    tokenLookup stAB (some "tokB") = some userB ∧
    noteA.user = some userA.id ∧
    userB.id ≠ userA.id ∧
    (serverJs cryptoEx freshEx stAB ⟨.delete, ["notes", "n1"], some "tokB", {}⟩).resp
      = .noteDeleted noteA ∧
    (serverJs cryptoEx freshEx stAB ⟨.delete, ["notes", "n1"], some "tokB", {}⟩).state.notes
      = [] ∧
    (part000 cryptoEx freshEx stAB
        ⟨.patch, ["packinglist", "i1", "completed"], some "tokB",
          { isCompleted := some true }⟩).resp
      = .completedUpdated (some ⟨"i1", "Socks", "Five pairs", 10, true, some "uA"⟩) ∧
    (part000 cryptoEx freshEx stAB
        ⟨.patch, ["packinglist", "i1", "completed"], some "tokB",
          { isCompleted := some true }⟩).state.packing
      = [⟨"i1", "Socks", "Five pairs", 10, true, some "uA"⟩] := by
  refine ⟨rfl, rfl, ?_, rfl, rfl, rfl, rfl⟩
  decide

/-- C2: the claim says a request with an unknown bearer token to a
protected CRUD route always answers Unauthorized and never reaches the
store-touching handler.  In server.js the auth middleware for the
packing-list update is registered on the two-segment path, which does
not match the three-segment update path, so a request whose token
matches no stored user reaches findByIdAndUpdate, mutates the item and
answers success. -/
theorem c2_update_runs_without_auth :
    (∀ w ∈ stAB.users, w.accessToken ≠ "garbage") ∧
    (serverJs cryptoEx freshEx stAB
        ⟨.patch, ["packinglist", "i1", "update"], some "garbage",
          { heading := some "Hacked", message := some "By stranger" }⟩).resp
      = .itemUpdated ⟨"i1", "Hacked", "By stranger", 10, false, some "uA"⟩ ∧
    (serverJs cryptoEx freshEx stAB
        ⟨.patch, ["packinglist", "i1", "update"], some "garbage",
          { heading := some "Hacked", message := some "By stranger" }⟩).state.packing
      = [⟨"i1", "Hacked", "By stranger", 10, false, some "uA"⟩] ∧
    (serverJs cryptoEx freshEx stAB
        ⟨.patch, ["packinglist", "i1", "update"], some "garbage",
          { heading := some "Hacked", message := some "By stranger" }⟩).ran
      = ["sjPatchPackingUpdate"] := by
  refine ⟨?_, rfl, rfl, rfl⟩
  decide

/-- C3 counterexample: in server.js, authenticateUser never attaches the
resolved user to the request, so an authenticated create (here by user A
whose token resolves) persists the note with no owner at all — not with
the caller's identity — even though the body carried an owner field. -/
theorem c3_owner_counterexample :
    tokenLookup stAB (some "tokA") = some userA ∧
    c3body.user = some "uB" ∧
    (serverJs cryptoEx freshEx stAB ⟨.post, ["notes"], some "tokA", c3body⟩).resp
      = .noteSaved ⟨"newN", "Lisbon", "Pack the charger", "travel", 100, none⟩ ∧
    (⟨"newN", "Lisbon", "Pack the charger", "travel", 100, none⟩ : Note).user
      ≠ some userA.id := by
  refine ⟨rfl, rfl, by decide, by decide⟩

/-- C3 amended: in the part_000 variant the persisted owner is exactly
the identity resolved from the bearer token; in the server.js variant
authenticateUser never attaches the identity, so the persisted owner is
absent; and in both variants the client-supplied owner field of the body
is immaterial — two creates differing only in that field behave
identically. -/
theorem c3_amended (c : Crypto) (fresh : Fresh) (st : ServerState) (tok : String) (w : User)
    (b : Body) (ow : Option String)
    (hw : st.users.find? (fun u => u.accessToken == tok) = some w)
    (hready : st.readyState = 1) :
    (∀ n, (part000 c fresh st ⟨.post, ["notes"], some tok, b⟩).resp = .noteSaved n →
      n.user = some w.id) ∧
    (∀ n, (serverJs c fresh st ⟨.post, ["notes"], some tok, b⟩).resp = .noteSaved n →
      n.user = none) ∧
    part000 c fresh st ⟨.post, ["notes"], some tok, { b with user := ow }⟩ =
      part000 c fresh st ⟨.post, ["notes"], some tok, b⟩ ∧
    serverJs c fresh st ⟨.post, ["notes"], some tok, { b with user := ow }⟩ =
      serverJs c fresh st ⟨.post, ["notes"], some tok, b⟩ := by
  refine ⟨?_, ?_, ?_, ?_⟩
  · intro n hn
    simp [part000, part000Regs, runRegs, regMatches, methodMatch, routeMatch, pathMatch,
      segMatch, authSetUserStep, tokenLookup, hready, hw, postNotesStep] at hn
    rcases hv : validateNote p0TagEnum b.heading b.message b.tags with _ | vhm
    · simp [hv] at hn
    · simp [hv, hready] at hn
      rw [← hn]
  · intro n hn
    simp [serverJs, serverJsRegs, runRegs, regMatches, methodMatch, routeMatch, pathMatch,
      segMatch, authStep, tokenLookup, hready, hw, postNotesStep] at hn
    rcases hv : validateNote sjTagEnum b.heading b.message b.tags with _ | vhm
    · simp [hv] at hn
    · simp [hv, hready] at hn
      rw [← hn]
  · have hm : ∀ r ∈ part000Regs c fresh,
        regMatches r ⟨.post, ["notes"], some tok, { b with user := ow }⟩ =
        regMatches r ⟨.post, ["notes"], some tok, b⟩ := fun r _ => rfl
    have hr : ∀ r ∈ part000Regs c fresh,
        regMatches r ⟨.post, ["notes"], some tok, { b with user := ow }⟩ = true →
        ∀ st2 ctx2,
          r.run st2 ⟨.post, ["notes"], some tok, { b with user := ow }⟩ ctx2 =
          r.run st2 ⟨.post, ["notes"], some tok, b⟩ ctx2 := by
      intro r hrr
      simp only [part000Regs, List.mem_cons, List.not_mem_nil, or_false] at hrr
      rcases hrr with rfl | rfl | rfl | rfl | rfl | rfl | rfl | rfl | rfl | rfl | rfl | rfl |
        rfl | rfl | rfl | rfl | rfl | rfl | rfl | rfl | rfl
      all_goals intro hmatch
      all_goals first
      | (intro st2 ctx2; rfl)
      | simp [regMatches, methodMatch, routeMatch, pathMatch, segMatch] at hmatch
    exact runRegs_congr _ _ _ hm hr st none
  · have hm : ∀ r ∈ serverJsRegs c fresh,
        regMatches r ⟨.post, ["notes"], some tok, { b with user := ow }⟩ =
        regMatches r ⟨.post, ["notes"], some tok, b⟩ := fun r _ => rfl
    have hr : ∀ r ∈ serverJsRegs c fresh,
        regMatches r ⟨.post, ["notes"], some tok, { b with user := ow }⟩ = true →
        ∀ st2 ctx2,
          r.run st2 ⟨.post, ["notes"], some tok, { b with user := ow }⟩ ctx2 =
          r.run st2 ⟨.post, ["notes"], some tok, b⟩ ctx2 := by
      intro r hrr
      simp only [serverJsRegs, List.mem_cons, List.not_mem_nil, or_false] at hrr
      rcases hrr with rfl | rfl | rfl | rfl | rfl | rfl | rfl | rfl | rfl | rfl | rfl | rfl |
        rfl | rfl | rfl | rfl | rfl | rfl | rfl | rfl | rfl | rfl | rfl | rfl
      all_goals intro hmatch st2 ctx2
      all_goals rfl
    exact runRegs_congr _ _ _ hm hr st none

/-- C3 amended witness: with the concrete store, user A's token and the
body that carries a client-supplied owner uB, the note part_000
persists is owned by A. -/
theorem c3_amended_witness :
    (⟨"newN", "Lisbon", "Pack the charger", "travel", 100, some "uA"⟩ : Note).user
      = some userA.id :=
  (c3_amended cryptoEx freshEx stAB "tokA" userA c3body (some "uB") rfl rfl).1
    ⟨"newN", "Lisbon", "Pack the charger", "travel", 100, some "uA"⟩ (by decide)

/-- C4: when the lowercased username of a register call equals the
username of an already-persisted user, register answers the duplicate
outcome and persists nothing, whatever the password — in particular the
duplicate check fires before the weak-password check, since the result
does not depend on the password at all. -/
theorem c4_duplicate_username (c : Crypto) (fresh : Fresh) (users : List User) (u p : String)
    (hdup : ∃ w ∈ users, w.username = strToLower u) :
    register c fresh users u p = (.duplicate, users) := by
  rcases hdup with ⟨w, hmem, hwu⟩
  cases hfind : users.find? (fun v => v.username == strToLower u) with
  | some v => simp [register, hfind]
  | none =>
    rw [List.find?_eq_none] at hfind
    exact absurd (by simpa using hwu) (by simpa using hfind w hmem)

/-- C4 witness: registering ALICE again with the one-character password
x hits the duplicate outcome, not the weak-password one, and the stored
users are untouched. -/
theorem c4_duplicate_username_witness :
    (∃ w ∈ [userA, userB], w.username = strToLower "ALICE") ∧
    register cryptoEx freshEx [userA, userB] "ALICE" "x" = (.duplicate, [userA, userB]) :=
  ⟨⟨userA, by decide, by decide⟩,
    c4_duplicate_username cryptoEx freshEx [userA, userB] "ALICE" "x"
      ⟨userA, by decide, by decide⟩⟩

/-- C5: on a free username, a password shorter than 8 characters gives
the weak-password outcome and persists nothing, and a password of 8 or
more characters never gives that outcome. -/
theorem c5_weak_password (c : Crypto) (fresh : Fresh) (users : List User) (u p : String)
    (hfree : ∀ w ∈ users, w.username ≠ strToLower u) :
    (p.length < 8 → register c fresh users u p = (.weak, users)) ∧
    (8 ≤ p.length → (register c fresh users u p).1 ≠ .weak) := by
  have hfind : users.find? (fun v => v.username == strToLower u) = none := by
    rw [List.find?_eq_none]
    intro w hw
    simpa using hfree w hw
  constructor
  · intro hlt
    simp [register, hfind, hlt]
  · intro hge
    have hnlt : ¬p.length < 8 := not_lt.mpr hge
    simp [register, hfind, hnlt]

/-- C5 witness: carol with a five-character password is rejected as
weak, with the store unchanged. -/
theorem c5_weak_password_witness :
    (∀ w ∈ [userA, userB], w.username ≠ strToLower "carol") ∧
    register cryptoEx freshEx [userA, userB] "carol" "short" = (.weak, [userA, userB]) :=
  ⟨by decide,
    (c5_weak_password cryptoEx freshEx [userA, userB] "carol" "short" (by decide)).1
      (by decide)⟩

/-- C6: login succeeds exactly when the lowercased username finds a
stored user and the hash comparison of the supplied password against
that user's stored hash succeeds; on success the returned token is the
stored token; and the login handler never writes the store, so repeated
logins without intervening writes answer identically. -/
theorem c6_login_spec (c : Crypto) (users : List User) (u p : String) :
    ((∃ un tok uid, login c users u p = .ok un tok uid) ↔
      ∃ w, users.find? (fun v => v.username == strToLower u) = some w ∧
        c.compare p w.password = true) ∧
    (∀ w, users.find? (fun v => v.username == strToLower u) = some w →
      c.compare p w.password = true →
      login c users u p = .ok w.username w.accessToken w.id) ∧
    (∀ st req ctx resp st2 ran, loginStep c st req ctx = .respond resp st2 ran → st2 = st) := by
  refine ⟨?_, ?_, ?_⟩
  · cases hfind : users.find? (fun v => v.username == strToLower u) with
    | some w =>
      cases hcmp : c.compare p w.password with
      | true =>
        constructor
        · intro _
          exact ⟨w, rfl, hcmp⟩
        · intro _
          exact ⟨w.username, w.accessToken, w.id, by simp [login, hfind, hcmp]⟩
      | false =>
        constructor
        · intro ⟨un, tok, uid, hok⟩
          simp [login, hfind, hcmp] at hok
        · intro ⟨w2, hw2, hcmp2⟩
          cases hw2
          rw [hcmp] at hcmp2
          cases hcmp2
    | none =>
      constructor
      · intro ⟨un, tok, uid, hok⟩
        simp [login, hfind] at hok
      · intro ⟨w2, hw2, _⟩
        cases hw2
  · intro w hfind hcmp
    simp [login, hfind, hcmp]
  · intro st req ctx resp st2 ran h
    unfold loginStep at h
    repeat' split at h
    all_goals cases h
    all_goals rfl

/-- C6 witness: logging ALICE in with the right password answers the
stored token tokA; the hypotheses of the second conjunct hold by
computation. -/
theorem c6_login_witness :
    login cryptoEx [userA, userB] "ALICE" "password1" = .ok "alice" "tokA" "uA" :=
  (c6_login_spec cryptoEx [userA, userB] "ALICE" "password1").2.1 userA (by decide) rfl

/-- C7: an access token is the hex encoding of the 128 random bytes
drawn at creation (so 256 characters long), it is assigned only when
register persists a new user, and no dispatched request of either
variant removes or rewrites an already-stored user record, so an
existing user's token never changes. -/
theorem c7_access_token (c : Crypto) (fresh : Fresh)
    (hlen : fresh.tokenBytes.length = 128) :
    (hexEncode fresh.tokenBytes).length = 256 ∧
    (∀ users u p, ∃ rest, (register c fresh users u p).2 = users ++ rest ∧
      ∀ w ∈ rest, w.accessToken = hexEncode fresh.tokenBytes) ∧
    (∀ st req, ∃ rest, (serverJs c fresh st req).state.users = st.users ++ rest) ∧
    (∀ st req, ∃ rest, (part000 c fresh st req).state.users = st.users ++ rest) := by
  refine ⟨?_, ?_, ?_, ?_⟩
  · rw [hexEncode_length, hlen]
  · intro users u p
    exact register_users c fresh users u p
  · intro st req
    exact serverJs_users c fresh st req
  · intro st req
    exact part000_users c fresh st req

/-- C7 witness: the concrete oracle draws 128 bytes and its hex token
has 256 characters. -/
theorem c7_access_token_witness :
    freshEx.tokenBytes.length = 128 ∧ (hexEncode freshEx.tokenBytes).length = 256 :=
  ⟨rfl, (c7_access_token cryptoEx freshEx rfl).1⟩

/-- C8: the claim says the list operation answers the owner's records
ordered by creation time, newest first.  part_000 sorts on the path
createdAt while the schema stores createAt, so the sort key is missing
on every note and the answer keeps insertion order: with A's notes
created at times 10 and 20 and stored in that order, GET /notes answers
the older note first, not the required descending order — which sorting
on the actual createAt path would have produced. -/
theorem c8_sort_field_bug :
    tokenLookup stC8 (some "tokA") = some userA ∧
    (part000 cryptoEx freshEx stC8 ⟨.get, ["notes"], some "tokA", {}⟩).resp
      = .notesList [noteOld, noteNew] ∧
    noteOld.createAt < noteNew.createAt ∧
    notesCreateAtDesc [noteOld, noteNew] = false ∧
    notesCreateAtDesc [noteNew, noteOld] = true ∧
    sortDesc (fun n => noteSortField n "createAt") [noteOld, noteNew]
      = [noteNew, noteOld] := by
  refine ⟨rfl, rfl, by decide, by decide, by decide, by decide⟩

/-- C9 counterexample: with the connection down, POST /register is
handled by the register route, which is registered before the readiness
middleware; the response is the handler's catch response, not
ServiceUnavailable, and the register handler body did run. -/
theorem c9_register_not_gated :
    stDown.readyState ≠ 1 ∧
    (serverJs cryptoEx freshEx stDown
        ⟨.post, ["register"], none,
          { username := some "carol", password := some "password9" }⟩).resp
      = .caughtError ∧
    Resp.caughtError ≠ Resp.serviceUnavailable ∧
    (serverJs cryptoEx freshEx stDown
        ⟨.post, ["register"], none,
          { username := some "carol", password := some "password9" }⟩).ran
      = ["register"] := by
  refine ⟨by decide, rfl, by decide, rfl⟩

/-- C9 amended: the readiness gate applies to the requests that no
earlier-registered route matches — for the packing-list routes of both
variants a request under a down connection answers ServiceUnavailable
with no handler run and the store untouched — while requests matching
routes registered before the gate (register, login, notes) are not
gated. -/
theorem c9_amended (c : Crypto) (fresh : Fresh) (st : ServerState) (a : Option String)
    (b : Body) (x : String) (hdown : st.readyState ≠ 1) :
    serverJs c fresh st ⟨.post, ["packinglist"], a, b⟩ = ⟨.serviceUnavailable, st, []⟩ ∧
    serverJs c fresh st ⟨.patch, ["packinglist", x, "update"], a, b⟩
      = ⟨.serviceUnavailable, st, []⟩ ∧
    part000 c fresh st ⟨.post, ["packinglist"], a, b⟩ = ⟨.serviceUnavailable, st, []⟩ ∧
    part000 c fresh st ⟨.patch, ["packinglist", x, "completed"], a, b⟩
      = ⟨.serviceUnavailable, st, []⟩ := by
  refine ⟨?_, ?_, ?_, ?_⟩ <;>
    simp [serverJs, part000, serverJsRegs, part000Regs, runRegs, regMatches, methodMatch,
      routeMatch, pathMatch, segMatch, readinessStep, hdown]

/-- C9 amended witness: the concrete down store rejects a packing-list
create with ServiceUnavailable. -/
theorem c9_amended_witness :
    stDown.readyState ≠ 1 ∧
    serverJs cryptoEx freshEx stDown ⟨.post, ["packinglist"], some "tokA", {}⟩ =
      ⟨.serviceUnavailable, stDown, []⟩ :=
  ⟨by decide, (c9_amended cryptoEx freshEx stDown (some "tokA") {} "x" (by decide)).1⟩

/-- C10: in server.js, PATCH /notes/:notesId/completed answers 200 for
every state, token and body while leaving the whole store — in
particular every stored note — exactly as it was: the handler
constructs a document from the model instead of executing an update. -/
theorem c10_notes_completed_noop (c : Crypto) (fresh : Fresh) (st : ServerState)
    (a : Option String) (b : Body) (x : String) :
    serverJs c fresh st ⟨.patch, ["notes", x, "completed"], a, b⟩ =
      ⟨.notesCompletedOk, st, ["sjPatchNotesCompleted"]⟩ ∧
    Resp.notesCompletedOk.status = 200 :=
  ⟨rfl, rfl⟩
